import Mathlib

/-!
Shallow embedding of the color-separation editor's pixel engine
(`src/utils/colorUtils.js`, the image-utility module, the report module and
the app container's layer handlers), together with proofs of the spec's
claims about it.

Conventions of the embedding:
* A raster (`ImageData`) is a width, a height and a row-major RGBA byte
  list; bytes are `ℕ` (the source stores them in `Uint8ClampedArray`s).
* Reading `data[i]` is `List.getD data i 0`; in every claim the index is
  in range, where JS out-of-range reads would yield `undefined`.
* JS numbers are modelled as exact rationals (`ℚ`) where fractions arise
  and as `ℕ`/`ℤ` where the source only holds integers; `Math.sqrt` is
  `Real.sqrt`; `Math.floor` is `Int.floor`; `Math.round x` is
  `⌊x + 1/2⌋` (exact on the inputs the claims exercise).
* Imperative per-pixel loops that fill a fresh buffer are written as
  `List.ofFn` over the byte index; scatter loops (rotation) are written as
  the equivalent gather by the inverse index map, and a scatter-form lemma
  is proved for each to tie the definition back to the source's write
  statement.
-/

/-- Math.round for a rational: round half away from zero is round half up
on the nonnegative values the code produces. -/
def jsRound (q : ℚ) : ℤ := ⌊q + 1/2⌋

/-- Storing an integer into a `Uint8ClampedArray` clamps it into 0..255. -/
def clampByte (z : ℤ) : ℕ := min z.toNat 255

/-- An RGB color: three channel values (0..255 in every use). -/
structure RGB where
  r : ℕ
  g : ℕ
  b : ℕ
deriving DecidableEq, Repr

/-- A decoded raster: width, height and row-major RGBA bytes. -/
structure ImageData where
  width : ℕ
  height : ℕ
  data : List ℕ
deriving DecidableEq, Repr

/-- A layer: stable id, target color, optional tolerance (the source reads
`layer.tolerance ?? 10`), optional 0/1 mask (the source guards `mask &&`),
optional committed paint overlay. -/
structure Layer where
  id : String
  color : RGB
  tolerance : Option ℚ := none
  mask : Option (List ℕ) := none
  paintData : Option (List ℕ) := none
deriving DecidableEq, Repr

/-- A crop rectangle `{x, y, width, height}`. -/
structure Rect where
  x : ℕ
  y : ℕ
  width : ℕ
  height : ℕ
deriving DecidableEq, Repr

/-! ## Color matcher (`colorUtils.js`) -/

/-- The squared Euclidean RGB distance, the radicand of `rgbDistance`. -/
def rgbDistSq (r1 g1 b1 r2 g2 b2 : ℚ) : ℚ :=
  (r1 - r2) ^ 2 + (g1 - g2) ^ 2 + (b1 - b2) ^ 2

/-- `rgbDistance`: Euclidean distance between two RGB colors. -/
noncomputable def rgbDistance (r1 g1 b1 r2 g2 b2 : ℚ) : ℝ :=
  Real.sqrt (rgbDistSq r1 g1 b1 r2 g2 b2 : ℚ)

/-- `MAX_RGB_DISTANCE = Math.sqrt(3 * 255 * 255)`. -/
noncomputable def MAX_RGB_DISTANCE : ℝ := Real.sqrt (3 * 255 * 255)

/-- `toleranceToDistance`: tolerance slider (0-100) to distance threshold. -/
noncomputable def toleranceToDistance (tolerancePercent : ℚ) : ℝ :=
  if tolerancePercent ≤ 0 then 0
  else (tolerancePercent / 100 : ℚ) * MAX_RGB_DISTANCE

/-- `colorMatches`: the pixel is within the tolerance threshold of the
target color. -/
def colorMatches (pr pg pb tr tg tb : ℚ) (tolerancePercent : ℚ) : Prop :=
  rgbDistance pr pg pb tr tg tb ≤ toleranceToDistance tolerancePercent

theorem rgbDistSq_nonneg (r1 g1 b1 r2 g2 b2 : ℚ) :
    0 ≤ rgbDistSq r1 g1 b1 r2 g2 b2 := by
  have h1 := sq_nonneg (r1 - r2)
  have h2 := sq_nonneg (g1 - g2)
  have h3 := sq_nonneg (b1 - b2)
  unfold rgbDistSq
  linarith

theorem toleranceToDistance_nonneg (t : ℚ) : 0 ≤ toleranceToDistance t := by
  unfold toleranceToDistance
  by_cases h : t ≤ 0
  · simp [h]
  · simp only [h, if_false]
    have ht : (0 : ℝ) ≤ ((t / 100 : ℚ) : ℝ) := by
      push_cast
      push_neg at h
      positivity
    exact mul_nonneg ht (Real.sqrt_nonneg _)

/-- The comparison `rgbDistance ≤ toleranceToDistance t`, with both sides
squared: a decidable characterization of `colorMatches`. -/
theorem colorMatches_iff (pr pg pb tr tg tb t : ℚ) :
    colorMatches pr pg pb tr tg tb t ↔
      (if t ≤ 0 then rgbDistSq pr pg pb tr tg tb = 0
       else rgbDistSq pr pg pb tr tg tb * 100 ^ 2 ≤ t ^ 2 * (3 * 255 * 255)) := by
  unfold colorMatches rgbDistance toleranceToDistance
  have hd : (0 : ℝ) ≤ ((rgbDistSq pr pg pb tr tg tb : ℚ) : ℝ) := by
    exact_mod_cast rgbDistSq_nonneg pr pg pb tr tg tb
  by_cases h : t ≤ 0
  · simp only [h, if_true]
    constructor
    · intro hle
      have h0 : Real.sqrt ((rgbDistSq pr pg pb tr tg tb : ℚ) : ℝ) = 0 :=
        le_antisymm hle (Real.sqrt_nonneg _)
      have hz : ((rgbDistSq pr pg pb tr tg tb : ℚ) : ℝ) = 0 :=
        (Real.sqrt_eq_zero hd).mp h0
      exact_mod_cast hz
    · intro h0
      have : ((rgbDistSq pr pg pb tr tg tb : ℚ) : ℝ) = 0 := by exact_mod_cast h0
      rw [this, Real.sqrt_zero]
  · simp only [h, if_false]
    push_neg at h
    have ht : (0 : ℝ) < ((t / 100 : ℚ) : ℝ) := by
      push_cast
      positivity
    have hM : (0 : ℝ) ≤ (3 * 255 * 255 : ℝ) := by norm_num
    constructor
    · intro hle
      have hsq := mul_self_le_mul_self (Real.sqrt_nonneg _) hle
      rw [Real.mul_self_sqrt hd] at hsq
      unfold MAX_RGB_DISTANCE at hsq
      have hrw : ((t / 100 : ℚ) : ℝ) * Real.sqrt (3 * 255 * 255) *
          (((t / 100 : ℚ) : ℝ) * Real.sqrt (3 * 255 * 255)) =
          ((t / 100 : ℚ) : ℝ) ^ 2 * (3 * 255 * 255) := by
        rw [mul_mul_mul_comm, Real.mul_self_sqrt hM]
        ring
      rw [hrw] at hsq
      have : ((rgbDistSq pr pg pb tr tg tb : ℚ) : ℝ) * 100 ^ 2 ≤
          ((t : ℚ) : ℝ) ^ 2 * (3 * 255 * 255) := by
        push_cast at hsq ⊢
        nlinarith [hsq]
      exact_mod_cast this
    · intro hle
      have hle2 : ((rgbDistSq pr pg pb tr tg tb : ℚ) : ℝ) ≤
          ((t / 100 : ℚ) : ℝ) ^ 2 * (3 * 255 * 255) := by
        have : ((rgbDistSq pr pg pb tr tg tb * 100 ^ 2 : ℚ) : ℝ) ≤
            ((t ^ 2 * (3 * 255 * 255) : ℚ) : ℝ) := by exact_mod_cast hle
        push_cast at this ⊢
        nlinarith [this]
      have hs := Real.sqrt_le_sqrt hle2
      rw [Real.sqrt_mul (by positivity) (3 * 255 * 255)] at hs
      rw [Real.sqrt_sq (le_of_lt ht)] at hs
      unfold MAX_RGB_DISTANCE
      exact hs

instance (pr pg pb tr tg tb t : ℚ) :
    Decidable (colorMatches pr pg pb tr tg tb t) :=
  decidable_of_iff _ (colorMatches_iff pr pg pb tr tg tb t).symm

/-- The `mask && mask[idx] === 1` guard: false for an absent mask. -/
def maskKeep (mask : Option (List ℕ)) (idx : ℕ) : Prop :=
  mask.elim False fun m => m.getD idx 0 = 1

instance (mask : Option (List ℕ)) (idx : ℕ) : Decidable (maskKeep mask idx) :=
  match mask with
  | none => isFalse (fun h => h)
  | some m => decidable_of_iff (m.getD idx 0 = 1) Iff.rfl

/-! ## Image utilities (image-utility module) -/

/-- `invertImageData`: for every 4-byte group, replace the three color
channels by `255 - v`; the alpha byte (index `≡ 3 mod 4`) is unchanged. -/
def invertImageData (imageData : ImageData) : ImageData :=
  { imageData with
    data := List.ofFn (fun k : Fin imageData.data.length =>
      if (k : ℕ) % 4 = 3 then imageData.data.getD k 0
      else 255 - imageData.data.getD k 0) }

/-- `exportLayerToImageData`: fresh zero raster of the original's size; a
pixel keeps its original 4 bytes iff `mask[idx] == 1` (with the source's
`mask &&` truthiness guard), its color matches the layer color at the
layer tolerance (`?? 10`), and its source alpha is positive. -/
def exportLayerToImageData (originalImageData : ImageData) (layer : Layer) :
    ImageData :=
  let src := originalImageData.data
  let tol := layer.tolerance.getD 10
  { width := originalImageData.width
    height := originalImageData.height
    data := List.ofFn
      (fun k : Fin (originalImageData.width * originalImageData.height * 4) =>
        let idx := (k : ℕ) / 4
        let i := 4 * idx
        if maskKeep layer.mask idx ∧
            colorMatches (src.getD i 0) (src.getD (i+1) 0) (src.getD (i+2) 0)
              layer.color.r layer.color.g layer.color.b tol ∧
            0 < src.getD (i+3) 0
        then src.getD k 0 else 0) }

/-- One layer's contribution to a pixel in `exportReconstructedImageData`:
the matched source pixel (or transparent), then the layer's paint overlay
blended over it with the source's non-premultiplied rule. Channels are the
exact rationals the JS float code computes. -/
def layerContribution (src : List ℕ) (i : ℕ) (layer : Layer) :
    ℚ × ℚ × ℚ × ℚ :=
  let idx := i / 4
  let tol := layer.tolerance.getD 10
  let base : ℚ × ℚ × ℚ × ℚ :=
    if maskKeep layer.mask idx ∧
        colorMatches (src.getD i 0) (src.getD (i+1) 0) (src.getD (i+2) 0)
          layer.color.r layer.color.g layer.color.b tol ∧
        0 < src.getD (i+3) 0
    then ((src.getD i 0 : ℚ), (src.getD (i+1) 0 : ℚ),
          (src.getD (i+2) 0 : ℚ), (src.getD (i+3) 0 : ℚ))
    else (0, 0, 0, 0)
  match layer.paintData with
  | none => base
  | some pd =>
    if 0 < pd.getD (i+3) 0 then
      let pA : ℚ := (pd.getD (i+3) 0 : ℚ) / 255
      let lr := base.1
      let lg := base.2.1
      let lb := base.2.2.1
      let la := base.2.2.2
      if 0 < la then
        let bA := la / 255
        let oA := pA + bA * (1 - pA)
        (((pd.getD i 0 : ℚ) * pA + lr * bA * (1 - pA)) / oA,
         ((pd.getD (i+1) 0 : ℚ) * pA + lg * bA * (1 - pA)) / oA,
         ((pd.getD (i+2) 0 : ℚ) * pA + lb * bA * (1 - pA)) / oA,
         (jsRound (oA * 255) : ℚ))
      else ((pd.getD i 0 : ℚ), (pd.getD (i+1) 0 : ℚ),
            (pd.getD (i+2) 0 : ℚ), (pd.getD (i+3) 0 : ℚ))
    else base

/-- Source-over blend of a layer's pixel onto the accumulated result bytes
(the `if (la > 0)` block of `exportReconstructedImageData`); stores go
through `Math.round` and the `Uint8ClampedArray` clamp. -/
def blendOver (res : ℕ × ℕ × ℕ × ℕ) (lp : ℚ × ℚ × ℚ × ℚ) : ℕ × ℕ × ℕ × ℕ :=
  let la := lp.2.2.2
  if 0 < la then
    let sA := la / 255
    let dA := (res.2.2.2 : ℚ) / 255
    let oA := sA + dA * (1 - sA)
    if 0 < oA then
      (clampByte (jsRound ((lp.1 * sA + (res.1 : ℚ) * dA * (1 - sA)) / oA)),
       clampByte (jsRound ((lp.2.1 * sA + (res.2.1 : ℚ) * dA * (1 - sA)) / oA)),
       clampByte (jsRound ((lp.2.2.1 * sA + (res.2.2.1 : ℚ) * dA * (1 - sA)) / oA)),
       clampByte (jsRound (oA * 255)))
    else res
  else res

/-- `exportReconstructedImageData`: select the layers whose id is in the id
set; with an empty selection return a fresh transparent raster; otherwise
composite the selected layers per pixel from the last selected (bottom) to
the first (top) over an initially zero buffer. -/
def exportReconstructedImageData (originalImageData : ImageData)
    (layers : List Layer) (layerIds : List String) : ImageData :=
  let selected := layers.filter (fun l => layerIds.contains l.id)
  if selected.length = 0 then
    { width := originalImageData.width
      height := originalImageData.height
      data := List.replicate (originalImageData.width * originalImageData.height * 4) 0 }
  else
    { width := originalImageData.width
      height := originalImageData.height
      data := (List.range (originalImageData.width * originalImageData.height)).flatMap
        (fun idx =>
          let res := selected.reverse.foldl
            (fun res layer => blendOver res (layerContribution originalImageData.data (4 * idx) layer))
            (0, 0, 0, 0)
          [res.1, res.2.1, res.2.2.1, res.2.2.2]) }

/-! ## Geometric transforms

The source's rotation loops scatter `out[j] := data[i]` over all source
coordinates; the coordinate map is a bijection, so the result is written
here as the equivalent gather through the inverse map (one scatter-form
lemma per case, `rotateImageData_write_*` / `rotateMask_write_*`, ties each
branch back to the source's write statement). -/

/-- `rotateImageData`: rotate by 90 (cw), -90 (ccw) or 180; any other
angle returns the input unchanged. The output buffer has the input
buffer's length (`new Uint8ClampedArray(data.length)`). -/
def rotateImageData (imageData : ImageData) (degrees : ℤ) : ImageData :=
  let w := imageData.width
  let h := imageData.height
  let data := imageData.data
  if degrees = 180 then
    { width := w, height := h
      data := List.ofFn (fun k : Fin data.length =>
        let c := (k : ℕ) % 4
        let q := (k : ℕ) / 4
        let ox := q % w
        let oy := q / w
        data.getD (((h - 1 - oy) * w + (w - 1 - ox)) * 4 + c) 0) }
  else if degrees = 90 then
    { width := h, height := w
      data := List.ofFn (fun k : Fin data.length =>
        let c := (k : ℕ) % 4
        let q := (k : ℕ) / 4
        let ox := q % h
        let oy := q / h
        data.getD (((h - 1 - ox) * w + oy) * 4 + c) 0) }
  else if degrees = -90 then
    { width := h, height := w
      data := List.ofFn (fun k : Fin data.length =>
        let c := (k : ℕ) % 4
        let q := (k : ℕ) / 4
        let ox := q % h
        let oy := q / h
        data.getD ((ox * w + (w - 1 - oy)) * 4 + c) 0) }
  else imageData

/-- `rotateMask`: same index maps on a 1-byte-per-pixel mask; for ±90 the
output is a fresh `h*w` buffer, for 180 a fresh buffer of the mask's
length; any other angle leaves the fresh buffer all zeros (the source's
`continue`). -/
def rotateMask (mask : List ℕ) (w h : ℕ) (degrees : ℤ) : List ℕ :=
  if degrees = 180 then
    List.ofFn (fun k : Fin mask.length =>
      let ox := (k : ℕ) % w
      let oy := (k : ℕ) / w
      mask.getD ((h - 1 - oy) * w + (w - 1 - ox)) 0)
  else if degrees = 90 then
    List.ofFn (fun k : Fin (h * w) =>
      let ox := (k : ℕ) % h
      let oy := (k : ℕ) / h
      mask.getD ((h - 1 - ox) * w + oy) 0)
  else if degrees = -90 then
    List.ofFn (fun k : Fin (h * w) =>
      let ox := (k : ℕ) % h
      let oy := (k : ℕ) / h
      mask.getD (ox * w + (w - 1 - oy)) 0)
  else List.replicate mask.length 0

/-- `flipMask`: mirror one or both axes in place; indices beyond `w*h`
(never present when the mask-length invariant holds) are untouched. -/
def flipMask (mask : List ℕ) (w h : ℕ) (horizontal vertical : Bool) : List ℕ :=
  List.ofFn (fun k : Fin mask.length =>
    let x := (k : ℕ) % w
    let y := (k : ℕ) / w
    if y < h then
      let sx := if horizontal then w - 1 - x else x
      let sy := if vertical then h - 1 - y else y
      mask.getD (sy * w + sx) 0
    else mask.getD k 0)

/-- `cropMask`: `out[dy*cw+dx] = mask[(y+dy)*srcWidth + (x+dx)]` into a
fresh `rect.width * rect.height` buffer. -/
def cropMask (mask : List ℕ) (srcWidth : ℕ) (rect : Rect) : List ℕ :=
  List.ofFn (fun k : Fin (rect.width * rect.height) =>
    let dx := (k : ℕ) % rect.width
    let dy := (k : ℕ) / rect.width
    mask.getD ((rect.y + dy) * srcWidth + (rect.x + dx)) 0)

/-- The dimensions `handleRotate` installs after rotating: ±90 swaps width
and height, anything else keeps them. -/
def rotatedDims (w h : ℕ) (degrees : ℤ) : ℕ × ℕ :=
  if degrees = 90 ∨ degrees = -90 then (h, w) else (w, h)

/-! ## Layer reordering (app container) -/

/-- `handleMoveLayerToIndex`: find the layer by id (`findIndex`), clamp the
requested index into `[0, length-1]`, decrement it when moving forward past
the layer's own slot, then `splice` out and re-insert. -/
def handleMoveLayerToIndex (prev : List Layer) (layerId : String)
    (toIndex : ℤ) : List Layer :=
  match prev.findIdx? (fun l => l.id == layerId) with
  | none => prev
  | some fromIndex =>
    let target : ℤ := max 0 (min ((prev.length : ℤ) - 1) toIndex)
    let target : ℤ := if (fromIndex : ℤ) < target then target - 1 else target
    if (fromIndex : ℤ) = target then prev
    else
      match prev[fromIndex]? with
      | none => prev
      | some removed => (prev.eraseIdx fromIndex).insertIdx target.toNat removed

/-! ## Dominant color extraction (`colorUtils.js`) -/

/-- `quantize`: `Math.min(levels - 1, Math.floor((v / 255) * levels))`,
computed exactly over ℕ (`⌊(v/255)·levels⌋ = v·levels/255`; the lemma
`quantize_eq_floor` states the floor form). -/
def quantize (v : ℕ) (levels : ℕ) : ℕ :=
  min (levels - 1) (v * levels / 255)

/-- The dequantized bucket center `Math.round((q + 0.5) * (255 / levels))`,
computed exactly over ℕ (the lemma `dequantCenter_eq_round` states the
round form). -/
def dequantCenter (q levels : ℕ) : ℕ :=
  ((2 * q + 1) * 255 + levels) / (2 * levels)

/-- `count[key] = (count[key] || 0) + 1` on a string-keyed object, as an
association list in first-insertion order — the order `Object.entries`
later yields for such (non-array-index) keys. -/
def bump (l : List ((ℕ × ℕ × ℕ) × ℕ)) (k : ℕ × ℕ × ℕ) :
    List ((ℕ × ℕ × ℕ) × ℕ) :=
  match l with
  | [] => [(k, 1)]
  | (k0, c) :: rest =>
    if k0 = k then (k0, c + 1) :: rest else (k0, c) :: bump rest k

/-- The sampling loops of `getDominantColors`: visit `(x, y)` with both
coordinates multiples of `sampleStep` (y outer, x inner), skip pixels with
alpha < 128, and count the quantized 3-tuple of the pixel's channels. -/
def sampleCounts (imageData : ImageData) (sampleStep levels : ℕ) :
    List ((ℕ × ℕ × ℕ) × ℕ) :=
  let data := imageData.data
  let w := imageData.width
  let pts := ((List.range imageData.height).filter
      (fun y => y % sampleStep = 0)).flatMap
    (fun y => ((List.range w).filter (fun x => x % sampleStep = 0)).map
      (fun x => (x, y)))
  pts.foldl (fun count p =>
    let i := (p.2 * w + p.1) * 4
    if data.getD (i + 3) 0 < 128 then count
    else bump count
      (quantize (data.getD i 0) levels,
       quantize (data.getD (i + 1) 0) levels,
       quantize (data.getD (i + 2) 0) levels)) []

/-- `getDominantColors`: histogram of quantized samples (12 levels per
channel), sorted descending by frequency — `entries.sort((a, b) =>
b.count - a.count)` is a stable descending sort, modelled by insertion
sort with `count a ≥ count b` — then the top `maxColors` bins mapped to
their dequantized centers. -/
def getDominantColors (imageData : ImageData) (maxColors : ℕ := 20)
    (sampleStep : ℕ := 8) : List RGB :=
  let levels := 12
  let entries := (sampleCounts imageData sampleStep levels).insertionSort
    (fun a b => b.2 ≤ a.2)
  (entries.take maxColors).map (fun e =>
    { r := dequantCenter e.1.1 levels
      g := dequantCenter e.1.2.1 levels
      b := dequantCenter e.1.2.2 levels })

/-! ## Color report (report module) -/

/-- `Math.round(x).toString(16)` padded to two digits, for a byte. -/
def byteToHex2 (x : ℕ) : String :=
  let s := String.mk (Nat.toDigits 16 x)
  if s.length = 1 then "0" ++ s else s

/-- `rgbToHex`: lowercase `#rrggbb`. -/
def rgbToHex (r g b : ℕ) : String :=
  "#" ++ byteToHex2 r ++ byteToHex2 g ++ byteToHex2 b

/-- `Number.prototype.toFixed(2)` on the nonnegative values the report
produces: round to the nearest hundredth (half up, exact over ℚ) and print
with exactly two decimals. -/
def toFixed2 (q : ℚ) : String :=
  let n := (jsRound (q * 100)).toNat
  toString (n / 100) ++ "." ++
    (if n % 100 < 10 then "0" else "") ++ toString (n % 100)

/-- The pixel-count loop of `exportColorReportCSV` for one layer:
`for (i = 0; i < data.length; i += 4)` skips `data[i+3] < 128` and counts
color matches at the layer's tolerance. -/
def csvPixelCount (data : List ℕ) (layer : Layer) : ℕ :=
  ((List.range ((data.length + 3) / 4)).filter (fun p =>
    !decide (data.getD (4 * p + 3) 0 < 128) &&
    decide (colorMatches (data.getD (4 * p) 0) (data.getD (4 * p + 1) 0)
      (data.getD (4 * p + 2) 0) layer.color.r layer.color.g layer.color.b
      (layer.tolerance.getD 10)))).length

/-- `exportColorReportCSV`: the header row and one row per layer, joined
with CRLF; each row is hex, the three channels, the pixel count and the
percentage (`toFixed(2)` with a trailing `%`; the literal `0` when the
image has no pixels). -/
def exportColorReportCSV (layers : List Layer) (imageData : ImageData) :
    String :=
  let totalPixels := imageData.width * imageData.height
  let header := "Color (Hex),R,G,B,Pixel Count,Percentage"
  let rows := layers.map (fun layer =>
    let count := csvPixelCount imageData.data layer
    let pct := if 0 < totalPixels
      then toFixed2 ((count : ℚ) / totalPixels * 100) else "0"
    rgbToHex layer.color.r layer.color.g layer.color.b ++ "," ++
      toString layer.color.r ++ "," ++ toString layer.color.g ++ "," ++
      toString layer.color.b ++ "," ++ toString count ++ "," ++ pct ++ "%")
  String.intercalate "\r\n" (header :: rows)

/-- Modelled from the spec: the number of original-image pixels with alpha
≥ 128 whose color matches the layer's color at its tolerance. -/
def specPixelCount (imageData : ImageData) (layer : Layer) : ℕ :=
  ((Finset.range (imageData.width * imageData.height)).filter (fun p =>
    128 ≤ imageData.data.getD (4 * p + 3) 0 ∧
    colorMatches (imageData.data.getD (4 * p) 0)
      (imageData.data.getD (4 * p + 1) 0) (imageData.data.getD (4 * p + 2) 0)
      layer.color.r layer.color.g layer.color.b
      (layer.tolerance.getD 10))).card

/-- Modelled from the spec: one data row per layer (hex, R, G, B, pixel
count per `specPixelCount`, percentage to 2 decimals with a trailing `%`;
the same zero-pixel guard as the source, on which the spec is silent). -/
def csvSpecRow (imageData : ImageData) (layer : Layer) : String :=
  let totalPixels := imageData.width * imageData.height
  let count := specPixelCount imageData layer
  let pct := if 0 < totalPixels
    then toFixed2 ((count : ℚ) / totalPixels * 100) else "0"
  rgbToHex layer.color.r layer.color.g layer.color.b ++ "," ++
    toString layer.color.r ++ "," ++ toString layer.color.g ++ "," ++
    toString layer.color.b ++ "," ++ toString count ++ "," ++ pct ++ "%"

/-- Modelled from the spec: the report as the claim words it — the header
row and one data row per layer, *each row terminated by CRLF*. -/
def csvReportSpecTerminated (layers : List Layer) (imageData : ImageData) :
    String :=
  String.join
    (("Color (Hex),R,G,B,Pixel Count,Percentage" ::
      layers.map (csvSpecRow imageData)).map (fun r => r ++ "\r\n"))

/-! ## Shared index and list helpers -/

theorem idx_div_eq (a r b : ℕ) (hr : r < b) : (a * b + r) / b = a := by
  have hb : 0 < b := Nat.pos_of_ne_zero (by omega)
  rw [Nat.mul_comm a b, Nat.mul_add_div hb, Nat.div_eq_of_lt hr]
  omega

theorem idx_mod_eq (a r b : ℕ) (hr : r < b) : (a * b + r) % b = r := by
  rw [Nat.mul_comm a b, Nat.mul_add_mod]
  exact Nat.mod_eq_of_lt hr

theorem row_major_lt {x y w h : ℕ} (hx : x < w) (hy : y < h) :
    y * w + x < w * h := by
  have h1 : y * w + x < (y + 1) * w := by
    have : (y + 1) * w = y * w + w := by ring
    omega
  have h2 : (y + 1) * w ≤ h * w := Nat.mul_le_mul_right w hy
  have h3 : h * w = w * h := Nat.mul_comm h w
  omega

theorem getD_ofFn {n : ℕ} (f : Fin n → ℕ) (k : ℕ) (hk : k < n) :
    (List.ofFn f).getD k 0 = f ⟨k, hk⟩ := by
  rw [List.getD_eq_getElem _ _ (by simpa using hk)]
  simp [List.getElem_ofFn]

theorem getD_replicate_of_lt {n k a : ℕ} (hk : k < n) :
    (List.replicate n a).getD k 0 = a := by
  rw [List.getD_eq_getElem _ _ (by simpa using hk)]
  simp

/-! ## Color matcher facts -/

theorem toleranceToDistance_mono {t1 t2 : ℚ} (h : t1 ≤ t2) :
    toleranceToDistance t1 ≤ toleranceToDistance t2 := by
  by_cases h1 : t1 ≤ 0
  · have : toleranceToDistance t1 = 0 := by simp [toleranceToDistance, h1]
    rw [this]
    exact toleranceToDistance_nonneg t2
  · have h2 : ¬ t2 ≤ 0 := by push_neg at h1 ⊢; linarith
    unfold toleranceToDistance
    simp only [h1, h2, if_false]
    have hM : (0 : ℝ) ≤ MAX_RGB_DISTANCE := Real.sqrt_nonneg _
    have hc : ((t1 / 100 : ℚ) : ℝ) ≤ ((t2 / 100 : ℚ) : ℝ) := by
      have h12 : (t1 : ℝ) ≤ (t2 : ℝ) := by exact_mod_cast h
      push_cast
      linarith
    exact mul_le_mul_of_nonneg_right hc hM

theorem colorMatches_at_100 (pr pg pb tr tg tb : ℚ)
    (hpr : 0 ≤ pr) (hpr2 : pr ≤ 255) (hpg : 0 ≤ pg) (hpg2 : pg ≤ 255)
    (hpb : 0 ≤ pb) (hpb2 : pb ≤ 255) (htr : 0 ≤ tr) (htr2 : tr ≤ 255)
    (htg : 0 ≤ tg) (htg2 : tg ≤ 255) (htb : 0 ≤ tb) (htb2 : tb ≤ 255) :
    colorMatches pr pg pb tr tg tb 100 := by
  rw [colorMatches_iff]
  rw [if_neg (by norm_num : ¬ (100 : ℚ) ≤ 0)]
  have e1 : (pr - tr) ^ 2 ≤ 255 ^ 2 := sq_le_sq' (by linarith) (by linarith)
  have e2 : (pg - tg) ^ 2 ≤ 255 ^ 2 := sq_le_sq' (by linarith) (by linarith)
  have e3 : (pb - tb) ^ 2 ≤ 255 ^ 2 := sq_le_sq' (by linarith) (by linarith)
  unfold rgbDistSq
  nlinarith [e1, e2, e3]

/-- C4: `toleranceToDistance` is 0 for t ≤ 0 and `(t/100)·√(3·255²)`
otherwise; it is monotone on [0,100]; t = 0 gives threshold 0 (so a match
at tolerance 0 is an exact color match); t = 100 gives the maximum RGB
distance √(3·255²) ≈ 441.67, so every pair of valid RGB colors matches at
tolerance 100. -/
theorem toleranceToDistance_spec :
    (∀ t : ℚ, t ≤ 0 → toleranceToDistance t = 0) ∧
    (∀ t : ℚ, 0 < t →
      toleranceToDistance t = ((t / 100 : ℚ) : ℝ) * Real.sqrt (3 * 255 ^ 2)) ∧
    (∀ t1 t2 : ℚ, 0 ≤ t1 → t1 ≤ t2 → t2 ≤ 100 →
      toleranceToDistance t1 ≤ toleranceToDistance t2) ∧
    toleranceToDistance 0 = 0 ∧
    (∀ pr pg pb tr tg tb : ℚ,
      colorMatches pr pg pb tr tg tb 0 ↔ pr = tr ∧ pg = tg ∧ pb = tb) ∧
    toleranceToDistance 100 = Real.sqrt (3 * 255 ^ 2) ∧
    441 < toleranceToDistance 100 ∧ toleranceToDistance 100 < 442 ∧
    (∀ pr pg pb tr tg tb : ℚ, 0 ≤ pr → pr ≤ 255 → 0 ≤ pg → pg ≤ 255 →
      0 ≤ pb → pb ≤ 255 → 0 ≤ tr → tr ≤ 255 → 0 ≤ tg → tg ≤ 255 →
      0 ≤ tb → tb ≤ 255 → colorMatches pr pg pb tr tg tb 100) := by
  have hzero : ∀ t : ℚ, t ≤ 0 → toleranceToDistance t = 0 := by
    intro t ht
    simp [toleranceToDistance, ht]
  have hpos : ∀ t : ℚ, 0 < t →
      toleranceToDistance t = ((t / 100 : ℚ) : ℝ) * Real.sqrt (3 * 255 ^ 2) := by
    intro t ht
    have : ¬ t ≤ 0 := by linarith
    simp only [toleranceToDistance, this, if_false, MAX_RGB_DISTANCE]
    norm_num
  have h100 : toleranceToDistance 100 = Real.sqrt (3 * 255 ^ 2) := by
    rw [hpos 100 (by norm_num)]
    norm_num
  refine ⟨hzero, hpos, ?_, hzero 0 le_rfl, ?_, h100, ?_, ?_, ?_⟩
  · intro t1 t2 _ h12 _
    exact toleranceToDistance_mono h12
  · intro pr pg pb tr tg tb
    rw [colorMatches_iff]
    rw [if_pos (le_refl (0 : ℚ))]
    constructor
    · intro h0
      have s1 := sq_nonneg (pr - tr)
      have s2 := sq_nonneg (pg - tg)
      have s3 := sq_nonneg (pb - tb)
      unfold rgbDistSq at h0
      have e1 : (pr - tr) ^ 2 = 0 := by linarith
      have e2 : (pg - tg) ^ 2 = 0 := by linarith
      have e3 : (pb - tb) ^ 2 = 0 := by linarith
      refine ⟨?_, ?_, ?_⟩
      · have := pow_eq_zero_iff (n := 2) (by norm_num) |>.mp e1
        linarith [this]
      · have := pow_eq_zero_iff (n := 2) (by norm_num) |>.mp e2
        linarith [this]
      · have := pow_eq_zero_iff (n := 2) (by norm_num) |>.mp e3
        linarith [this]
    · rintro ⟨rfl, rfl, rfl⟩
      unfold rgbDistSq
      ring
  · rw [h100, show (441 : ℝ) = Real.sqrt (441 ^ 2) by
      rw [Real.sqrt_sq (by norm_num : (0:ℝ) ≤ 441)]]
    exact Real.sqrt_lt_sqrt (by norm_num) (by norm_num)
  · rw [h100, show (442 : ℝ) = Real.sqrt (442 ^ 2) by
      rw [Real.sqrt_sq (by norm_num : (0:ℝ) ≤ 442)]]
    exact Real.sqrt_lt_sqrt (by norm_num) (by norm_num)
  · intro pr pg pb tr tg tb hpr hpr2 hpg hpg2 hpb hpb2 htr htr2 htg htg2 htb htb2
    exact colorMatches_at_100 pr pg pb tr tg tb hpr hpr2 hpg hpg2 hpb hpb2
      htr htr2 htg htg2 htb htb2

/-- C5: `colorMatches(c, c, t)` holds for every color and every t ≥ 0, and
raising the tolerance never un-matches a matching pixel. -/
theorem colorMatches_self_and_mono :
    (∀ cr cg cb t : ℚ, 0 ≤ t → colorMatches cr cg cb cr cg cb t) ∧
    (∀ pr pg pb tr tg tb t1 t2 : ℚ, t1 ≤ t2 →
      colorMatches pr pg pb tr tg tb t1 → colorMatches pr pg pb tr tg tb t2) := by
  constructor
  · intro cr cg cb t _
    unfold colorMatches rgbDistance
    have h0 : rgbDistSq cr cg cb cr cg cb = 0 := by
      unfold rgbDistSq
      ring
    rw [h0]
    push_cast
    rw [Real.sqrt_zero]
    exact toleranceToDistance_nonneg t
  · intro pr pg pb tr tg tb t1 t2 h12 hm
    exact le_trans hm (toleranceToDistance_mono h12)

/-- C5 witness: self-match at tolerance 0 and monotonicity from 0 to 1 at
a concrete color. -/
theorem colorMatches_self_and_mono_witness :
    colorMatches 3 4 5 3 4 5 0 ∧ colorMatches 3 4 5 3 4 5 1 := by
  have h := colorMatches_self_and_mono
  have h0 : colorMatches 3 4 5 3 4 5 0 := h.1 3 4 5 0 le_rfl
  exact ⟨h0, h.2 3 4 5 3 4 5 0 1 (by norm_num) h0⟩

/-! ## Quantization bridges: the ℕ forms compute the JS float formulas -/

/-- `quantize` computes `Math.min(levels-1, Math.floor((v/255)*levels))`. -/
theorem quantize_eq_floor (v levels : ℕ) :
    quantize v levels = min (levels - 1) ⌊((v : ℚ) / 255) * levels⌋₊ := by
  have h1 : ((v : ℚ) / 255) * levels = ((v * levels : ℕ) : ℚ) / ((255 : ℕ) : ℚ) := by
    push_cast
    ring
  rw [h1, Nat.floor_div_nat, Nat.floor_natCast]
  rfl

/-- `dequantCenter` computes `Math.round((q+0.5)*(255/levels))` (round =
floor of x + 1/2 on nonnegative x). -/
theorem dequantCenter_eq_round (q levels : ℕ) (h : 0 < levels) :
    dequantCenter q levels = ⌊((q : ℚ) + 1/2) * (255 / levels) + 1/2⌋₊ := by
  have hne : ((levels : ℚ)) ≠ 0 := (Nat.cast_pos.mpr h).ne'
  have h1 : ((q : ℚ) + 1/2) * (255 / levels) + 1/2
      = (((2 * q + 1) * 255 + levels : ℕ) : ℚ) / ((2 * levels : ℕ) : ℚ) := by
    push_cast
    field_simp
    ring
  rw [h1, Nat.floor_div_nat, Nat.floor_natCast]
  rfl

/-- C10: `invertImageData` sends each color channel byte to `255 - v` and
leaves every alpha byte (index ≡ 3 mod 4) and the dimensions unchanged;
on byte-valued data applying it twice restores the raster. -/
theorem invertImageData_involution :
    (∀ (img : ImageData) (k : ℕ), k < img.data.length →
      (invertImageData img).data.getD k 0 =
        (if k % 4 = 3 then img.data.getD k 0 else 255 - img.data.getD k 0)) ∧
    (∀ img : ImageData, (invertImageData img).width = img.width ∧
      (invertImageData img).height = img.height ∧
      (invertImageData img).data.length = img.data.length) ∧
    (∀ img : ImageData, (∀ v ∈ img.data, v ≤ 255) →
      invertImageData (invertImageData img) = img) := by
  have hbyte : ∀ (img : ImageData) (k : ℕ) (hk : k < img.data.length),
      (invertImageData img).data.getD k 0 =
        (if k % 4 = 3 then img.data.getD k 0 else 255 - img.data.getD k 0) := by
    intro img k hk
    have h := getD_ofFn (fun k : Fin img.data.length =>
      if (k : ℕ) % 4 = 3 then img.data.getD k 0 else 255 - img.data.getD k 0) k hk
    simpa [invertImageData] using h
  refine ⟨hbyte, ?_, ?_⟩
  · intro img
    refine ⟨rfl, rfl, ?_⟩
    simp [invertImageData]
  · intro img hbytes
    have hlen1 : (invertImageData img).data.length = img.data.length := by
      simp [invertImageData]
    have hlen2 : (invertImageData (invertImageData img)).data.length =
        img.data.length := by
      simp [invertImageData]
    have hdata : (invertImageData (invertImageData img)).data = img.data := by
      apply List.ext_getElem (by simpa using hlen2)
      intro k h1 h2
      have hk : k < img.data.length := h2
      have e1 := hbyte (invertImageData img) k (by simpa [hlen1] using hk)
      have e2 := hbyte img k hk
      rw [List.getD_eq_getElem _ _ h1] at e1
      have hv : img.data.getD k 0 = img.data[k] := List.getD_eq_getElem _ _ hk
      have hle : img.data[k] ≤ 255 := hbytes _ (List.getElem_mem hk)
      by_cases hm : k % 4 = 3
      · rw [e1, if_pos hm, e2, if_pos hm, hv]
      · rw [e1, if_neg hm, e2, if_neg hm, hv]
        omega
    cases img with
    | mk w h data =>
      have hw : (invertImageData (invertImageData ⟨w, h, data⟩)).width = w := rfl
      have hh : (invertImageData (invertImageData ⟨w, h, data⟩)).height = h := rfl
      cases he : invertImageData (invertImageData ⟨w, h, data⟩) with
      | mk w2 h2 data2 =>
        have : w2 = w := by rw [← hw, he]
        have : h2 = h := by rw [← hh, he]
        have : data2 = data := by rw [show data2 = (ImageData.mk w2 h2 data2).data from rfl, ← he, hdata]
        simp_all

/-- C6: reconstruction with an empty selected-id set returns a raster of
the original's dimensions whose bytes are all zero — an explicit empty
result, not an error. -/
theorem exportReconstructed_empty (orig : ImageData) (layers : List Layer) :
    exportReconstructedImageData orig layers [] =
      { width := orig.width, height := orig.height,
        data := List.replicate (orig.width * orig.height * 4) 0 } ∧
    ∀ k : ℕ, (exportReconstructedImageData orig layers []).data.getD k 0 = 0 := by
  have hsel : layers.filter (fun l => List.contains [] l.id) = [] :=
    List.filter_eq_nil_iff.mpr (fun a _ => by simp)
  have hmain : exportReconstructedImageData orig layers [] =
      { width := orig.width, height := orig.height,
        data := List.replicate (orig.width * orig.height * 4) 0 } := by
    unfold exportReconstructedImageData
    rw [hsel]
    rfl
  refine ⟨hmain, ?_⟩
  intro k
  rw [hmain]
  by_cases hk : k < orig.width * orig.height * 4
  · exact getD_replicate_of_lt hk
  · exact List.getD_eq_default _ _ (by simpa using Nat.le_of_not_lt hk)

/-- The 4×4 fully red, fully opaque raster of the spec's end-to-end test. -/
def red4x4 : ImageData :=
  { width := 4, height := 4,
    data := (List.replicate 16 [255, 0, 0, 255]).flatten }

/-- C3: on the 4×4 fully red raster, `getDominantColors` with maxColors 5
and sampleStep 1 (quantization levels hardcoded to 12) returns exactly one
color, (244, 11, 11): the dequantized centers of the quantized tuple
(11, 0, 0). -/
theorem getDominantColors_red4x4 :
    getDominantColors red4x4 5 1 = [{ r := 244, g := 11, b := 11 }] ∧
    quantize 255 12 = 11 ∧ quantize 0 12 = 0 ∧
    dequantCenter 11 12 = 244 ∧ dequantCenter 0 12 = 11 := by decide

theorem getD_le_of_forall_le {data : List ℕ}
    (hbytes : ∀ v ∈ data, v ≤ 255) (j : ℕ) : data.getD j 0 ≤ 255 := by
  by_cases hj : j < data.length
  · rw [List.getD_eq_getElem _ _ hj]
    exact hbytes _ (List.getElem_mem hj)
  · rw [List.getD_eq_default _ _ (Nat.le_of_not_lt hj)]
    omega

/-- C1: a fully opaque raster exported through a single layer with an
all-ones mask and tolerance 100 (the Isolate-mode visibility rule:
`mask == 1` and color match and source alpha > 0) reproduces the source
raster byte for byte. Channel bounds come from the data model (bytes and
layer colors are 0..255). -/
theorem exportLayer_isolate_identity (orig : ImageData) (layer : Layer)
    (hlen : orig.data.length = orig.width * orig.height * 4)
    (hbytes : ∀ v ∈ orig.data, v ≤ 255)
    (halpha : ∀ p, p < orig.width * orig.height →
      orig.data.getD (4 * p + 3) 0 = 255)
    (hmask : layer.mask = some (List.replicate (orig.width * orig.height) 1))
    (htol : layer.tolerance = some 100)
    (hcr : layer.color.r ≤ 255) (hcg : layer.color.g ≤ 255)
    (hcb : layer.color.b ≤ 255) :
    exportLayerToImageData orig layer = orig := by
  have hdata : (exportLayerToImageData orig layer).data = orig.data := by
    apply List.ext_getElem
    · simp [exportLayerToImageData, hlen]
    · intro k h1 h2
      have hk4 : k < orig.width * orig.height * 4 := by
        simpa [exportLayerToImageData] using h1
      have hidx : k / 4 < orig.width * orig.height :=
        (Nat.div_lt_iff_lt_mul (by norm_num)).mpr hk4
      have hcond : maskKeep layer.mask (k / 4) ∧
          colorMatches (orig.data.getD (4 * (k / 4)) 0)
            (orig.data.getD (4 * (k / 4) + 1) 0)
            (orig.data.getD (4 * (k / 4) + 2) 0)
            layer.color.r layer.color.g layer.color.b
            (layer.tolerance.getD 10) ∧
          0 < orig.data.getD (4 * (k / 4) + 3) 0 := by
         refine ⟨?_, ?_, ?_⟩
         · rw [hmask]
           show (List.replicate (orig.width * orig.height) 1).getD (k / 4) 0 = 1
           exact getD_replicate_of_lt hidx
         · rw [htol]
           simp only [Option.getD_some]
           have hb1 := getD_le_of_forall_le hbytes (4 * (k / 4))
           have hb2 := getD_le_of_forall_le hbytes (4 * (k / 4) + 1)
           have hb3 := getD_le_of_forall_le hbytes (4 * (k / 4) + 2)
           apply colorMatches_at_100 <;>
             first
               | exact Nat.cast_nonneg _
               | exact_mod_cast hb1
               | exact_mod_cast hb2
               | exact_mod_cast hb3
               | exact_mod_cast hcr
               | exact_mod_cast hcg
               | exact_mod_cast hcb
         · rw [halpha (k / 4) hidx]
           norm_num
      simp only [exportLayerToImageData, List.getElem_ofFn]
      rw [if_pos hcond]
      exact List.getD_eq_getElem _ _ h2
  cases orig with
  | mk w h data =>
    cases he : exportLayerToImageData ⟨w, h, data⟩ layer with
    | mk w2 h2 data2 =>
      have hw2 : w2 = w := by
        have : (exportLayerToImageData ⟨w, h, data⟩ layer).width = w := rfl
        rw [he] at this
        exact this
      have hh2 : h2 = h := by
        have : (exportLayerToImageData ⟨w, h, data⟩ layer).height = h := rfl
        rw [he] at this
        exact this
      have hd2 : data2 = data := by
        have := hdata
        rw [he] at this
        exact this
      simp_all

/-- C1 witness: a concrete 1×1 fully opaque raster, an all-ones mask and
tolerance 100 reproduce the raster. -/
theorem exportLayer_isolate_identity_witness :
    exportLayerToImageData ⟨1, 1, [5, 6, 7, 255]⟩
        { id := "a", color := ⟨9, 8, 7⟩, tolerance := some 100,
          mask := some [1] } =
      ⟨1, 1, [5, 6, 7, 255]⟩ :=
  exportLayer_isolate_identity _ _ (by decide) (by decide) (by decide)
    (by rfl) (by rfl) (by decide) (by decide) (by decide)

/-- C9: the geometric transforms keep the mask-length invariant: a rotated
mask has length `newW * newH` for the dimensions `handleRotate` installs,
a flipped mask keeps its length, a cropped mask has length
`rect.width * rect.height`, and cropping a full all-ones mask by an
in-bounds rectangle yields the all-ones mask of the rectangle's size. -/
theorem mask_length_invariant :
    (∀ (mask : List ℕ) (w h : ℕ) (degrees : ℤ), mask.length = w * h →
      (degrees = 90 ∨ degrees = -90 ∨ degrees = 180) →
      (rotateMask mask w h degrees).length =
        (rotatedDims w h degrees).1 * (rotatedDims w h degrees).2) ∧
    (∀ (mask : List ℕ) (w h : ℕ) (horizontal vertical : Bool),
      (flipMask mask w h horizontal vertical).length = mask.length) ∧
    (∀ (mask : List ℕ) (srcWidth : ℕ) (rect : Rect),
      (cropMask mask srcWidth rect).length = rect.width * rect.height) ∧
    (∀ (w h : ℕ) (rect : Rect), rect.x + rect.width ≤ w →
      rect.y + rect.height ≤ h →
      cropMask (List.replicate (w * h) 1) w rect =
        List.replicate (rect.width * rect.height) 1) := by
  refine ⟨?_, ?_, ?_, ?_⟩
  · intro mask w h degrees hlen hd
    rcases hd with rfl | rfl | rfl
    · simp [rotateMask, rotatedDims]
    · simp [rotateMask, rotatedDims]
    · simp [rotateMask, rotatedDims, hlen]
  · intro mask w h horizontal vertical
    simp [flipMask]
  · intro mask srcWidth rect
    simp [cropMask]
  · intro w h rect hx hy
    apply List.ext_getElem
    · simp [cropMask]
    · intro k h1 h2
      have hk : k < rect.width * rect.height := by
        simpa [cropMask] using h1
      have hw : 0 < rect.width := by
        rcases Nat.eq_zero_or_pos rect.width with h0 | h0
        · rw [h0] at hk
          omega
        · exact h0
      have hdx : k % rect.width < rect.width := Nat.mod_lt _ hw
      have hdy : k / rect.width < rect.height := by
        rw [Nat.div_lt_iff_lt_mul hw]
        calc k < rect.width * rect.height := hk
          _ = rect.height * rect.width := Nat.mul_comm _ _
      have hxin : rect.x + k % rect.width < w := by omega
      have hyin : rect.y + k / rect.width < h := by omega
      have hin : (rect.y + k / rect.width) * w + (rect.x + k % rect.width) <
          w * h := row_major_lt hxin hyin
      simp only [cropMask, List.getElem_ofFn]
      rw [getD_replicate_of_lt hin]
      simp

/-- The slot a moved layer must land in per the claim: the requested index
clamped into `[0, length-1]`, minus one when the move goes forward past
the layer's own current position. -/
def moveTarget (prev : List Layer) (toIndex : ℤ) (i : ℕ) : ℕ :=
  (let clamped : ℤ := max 0 (min ((prev.length : ℤ) - 1) toIndex)
   if (i : ℤ) < clamped then clamped - 1 else clamped).toNat

/-- C8: reordering to an absolute index keeps the length, clamps the
requested index into `[0, length-1]`, decrements it by one when moving
forward past the layer's own position, puts the moved layer at that slot,
and keeps every other layer in its previous relative order. -/
theorem handleMoveLayerToIndex_spec (prev : List Layer) (layerId : String)
    (toIndex : ℤ) (i : ℕ)
    (hfind : prev.findIdx? (fun l => l.id == layerId) = some i) :
    (handleMoveLayerToIndex prev layerId toIndex).length = prev.length ∧
    (0 ≤ max 0 (min ((prev.length : ℤ) - 1) toIndex) ∧
      max 0 (min ((prev.length : ℤ) - 1) toIndex) ≤ (prev.length : ℤ) - 1) ∧
    (handleMoveLayerToIndex prev layerId toIndex).eraseIdx
      (moveTarget prev toIndex i) = prev.eraseIdx i ∧
    (handleMoveLayerToIndex prev layerId toIndex)[moveTarget prev toIndex i]? =
      prev[i]? := by
  obtain ⟨hi, -, -⟩ := List.findIdx?_eq_some_iff_getElem.mp hfind
  have hL : 1 ≤ prev.length := by omega
  have hc0 : (0 : ℤ) ≤ max 0 (min ((prev.length : ℤ) - 1) toIndex) :=
    le_max_left 0 _
  have hc1 : max 0 (min ((prev.length : ℤ) - 1) toIndex) ≤
      (prev.length : ℤ) - 1 :=
    max_le (by exact_mod_cast by omega) (min_le_left _ _)
  set c : ℤ := max 0 (min ((prev.length : ℤ) - 1) toIndex) with hc
  have hdef : handleMoveLayerToIndex prev layerId toIndex =
      (if ((i : ℕ) : ℤ) = (if (i : ℤ) < c then c - 1 else c) then prev
       else match prev[i]? with
         | none => prev
         | some removed =>
           (prev.eraseIdx i).insertIdx
             (if (i : ℤ) < c then c - 1 else c).toNat removed) := by
    unfold handleMoveLayerToIndex
    rw [hfind]
  have hmt : moveTarget prev toIndex i =
      (if (i : ℤ) < c then c - 1 else c).toNat := rfl
  have hget : prev[i]? = some prev[i] := List.getElem?_eq_getElem hi
  set t : ℤ := if (i : ℤ) < c then c - 1 else c with hts
  have ht0 : 0 ≤ t := by
    rw [hts]
    split
    · omega
    · exact hc0
  have ht1 : t ≤ (prev.length : ℤ) - 1 := by
    rw [hts]
    split
    · omega
    · exact hc1
  have hel : (prev.eraseIdx i).length = prev.length - 1 := by
    rw [List.length_eraseIdx]
    simp [hi]
  have htn : t.toNat ≤ (prev.eraseIdx i).length := by omega
  by_cases heq : ((i : ℕ) : ℤ) = t
  · rw [hdef, if_pos heq]
    have hmi : moveTarget prev toIndex i = i := by
      rw [hmt]
      omega
    rw [hmi]
    exact ⟨rfl, ⟨hc0, hc1⟩, rfl, rfl⟩
  · rw [hdef, if_neg heq, hget]
    refine ⟨?_, ⟨hc0, hc1⟩, ?_, ?_⟩
    · show (List.insertIdx t.toNat prev[i] (prev.eraseIdx i)).length = prev.length
      rw [List.length_insertIdx _ _ htn, hel]
      omega
    · rw [hmt]
      show (List.insertIdx t.toNat prev[i] (prev.eraseIdx i)).eraseIdx t.toNat =
        prev.eraseIdx i
      exact List.eraseIdx_insertIdx _ _
    · rw [hmt]
      show (List.insertIdx t.toNat prev[i] (prev.eraseIdx i))[t.toNat]? =
        some prev[i]
      have hlt : t.toNat <
          (List.insertIdx t.toNat prev[i] (prev.eraseIdx i)).length := by
        rw [List.length_insertIdx _ _ htn]
        omega
      rw [List.getElem?_eq_getElem hlt]
      exact congrArg some (List.getElem_insertIdx_self _ _ _ htn)

/-- C8 witness: moving the layer with id `b` of a two-layer list to index
0 is well-defined (the id is present at index 1). -/
theorem handleMoveLayerToIndex_spec_witness :
    (handleMoveLayerToIndex
        [{ id := "a", color := ⟨1, 2, 3⟩ }, { id := "b", color := ⟨4, 5, 6⟩ }]
        "b" 0).length = 2 ∧
    (handleMoveLayerToIndex
        [{ id := "a", color := ⟨1, 2, 3⟩ }, { id := "b", color := ⟨4, 5, 6⟩ }]
        "b" 0)[moveTarget
          [{ id := "a", color := ⟨1, 2, 3⟩ }, { id := "b", color := ⟨4, 5, 6⟩ }]
          0 1]? =
      [{ id := "a", color := ⟨1, 2, 3⟩ }, { id := "b", color := ⟨4, 5, 6⟩ }][1]? := by
  have h := handleMoveLayerToIndex_spec
    [{ id := "a", color := ⟨1, 2, 3⟩ }, { id := "b", color := ⟨4, 5, 6⟩ }]
    "b" 0 1 (by decide)
  exact ⟨h.1, h.2.2.2⟩

/-! ## Rotation: pointwise reads and the inverse pairs -/

theorem rotateMask_90_length (mask : List ℕ) (w h : ℕ) :
    (rotateMask mask w h 90).length = h * w := by
  simp [rotateMask]

theorem rotateMask_neg90_length (mask : List ℕ) (w h : ℕ) :
    (rotateMask mask w h (-90)).length = h * w := by
  simp [rotateMask]

theorem rotateMask_180_length (mask : List ℕ) (w h : ℕ) :
    (rotateMask mask w h 180).length = mask.length := by
  simp [rotateMask]

theorem rotateMask_90_getD (mask : List ℕ) (w h k : ℕ) (hk : k < h * w) :
    (rotateMask mask w h 90).getD k 0 =
      mask.getD ((h - 1 - k % h) * w + k / h) 0 := by
  have e : rotateMask mask w h 90 = List.ofFn (fun k : Fin (h * w) =>
      mask.getD ((h - 1 - (k : ℕ) % h) * w + (k : ℕ) / h) 0) := by
    simp [rotateMask]
  rw [e]
  exact getD_ofFn _ k hk

theorem rotateMask_neg90_getD (mask : List ℕ) (w h k : ℕ) (hk : k < h * w) :
    (rotateMask mask w h (-90)).getD k 0 =
      mask.getD ((k % h) * w + (w - 1 - k / h)) 0 := by
  have e : rotateMask mask w h (-90) = List.ofFn (fun k : Fin (h * w) =>
      mask.getD (((k : ℕ) % h) * w + (w - 1 - (k : ℕ) / h)) 0) := by
    simp [rotateMask]
  rw [e]
  exact getD_ofFn _ k hk

theorem rotateMask_180_getD (mask : List ℕ) (w h k : ℕ) (hk : k < mask.length) :
    (rotateMask mask w h 180).getD k 0 =
      mask.getD ((h - 1 - k / w) * w + (w - 1 - k % w)) 0 := by
  have e : rotateMask mask w h 180 = List.ofFn (fun k : Fin mask.length =>
      mask.getD ((h - 1 - (k : ℕ) / w) * w + (w - 1 - (k : ℕ) % w)) 0) := by
    simp [rotateMask]
  rw [e]
  exact getD_ofFn _ k hk

/-- Scatter form of the source's `out[oy*outW+ox] = mask[y*w+x]` for 90°:
`ox = outW-1-y`, `oy = x`. -/
theorem rotateMask_write_90 (mask : List ℕ) (w h x y : ℕ)
    (hx : x < w) (hy : y < h) :
    (rotateMask mask w h 90).getD (x * h + (h - 1 - y)) 0 =
      mask.getD (y * w + x) 0 := by
  have hb : h - 1 - y < h := by omega
  have hk : x * h + (h - 1 - y) < h * w := by
    have := row_major_lt hb hx
    omega
  rw [rotateMask_90_getD mask w h _ hk]
  rw [idx_mod_eq x (h - 1 - y) h hb, idx_div_eq x (h - 1 - y) h hb]
  have hyy : h - 1 - (h - 1 - y) = y := by omega
  rw [hyy]

/-- Scatter form for −90°: `ox = y`, `oy = outH-1-x`. -/
theorem rotateMask_write_neg90 (mask : List ℕ) (w h x y : ℕ)
    (hx : x < w) (hy : y < h) :
    (rotateMask mask w h (-90)).getD ((w - 1 - x) * h + y) 0 =
      mask.getD (y * w + x) 0 := by
  have hk : (w - 1 - x) * h + y < h * w := by
    have := row_major_lt hy (show w - 1 - x < w by omega)
    omega
  rw [rotateMask_neg90_getD mask w h _ hk]
  rw [idx_mod_eq (w - 1 - x) y h hy, idx_div_eq (w - 1 - x) y h hy]
  have hxx : w - 1 - (w - 1 - x) = x := by omega
  rw [hxx]

/-- Scatter form for 180°: `ox = w-1-x`, `oy = h-1-y`. -/
theorem rotateMask_write_180 (mask : List ℕ) (w h x y : ℕ)
    (hlen : mask.length = w * h) (hx : x < w) (hy : y < h) :
    (rotateMask mask w h 180).getD ((h - 1 - y) * w + (w - 1 - x)) 0 =
      mask.getD (y * w + x) 0 := by
  have hk : (h - 1 - y) * w + (w - 1 - x) < mask.length := by
    rw [hlen]
    exact row_major_lt (by omega) (by omega)
  rw [rotateMask_180_getD mask w h _ hk]
  rw [idx_div_eq (h - 1 - y) (w - 1 - x) w (by omega),
    idx_mod_eq (h - 1 - y) (w - 1 - x) w (by omega)]
  have hyy : h - 1 - (h - 1 - y) = y := by omega
  have hxx : w - 1 - (w - 1 - x) = x := by omega
  rw [hyy, hxx]

theorem rotateMask_90_neg90 (mask : List ℕ) (w h : ℕ)
    (hlen : mask.length = w * h) :
    rotateMask (rotateMask mask w h 90) h w (-90) = mask := by
  apply List.ext_getElem
  · rw [rotateMask_neg90_length, hlen]
  · intro k h1 h2
    have hk : k < w * h := by
      rw [← hlen]
      exact h2
    have hcomm : h * w = w * h := Nat.mul_comm h w
    have hw : 0 < w := by
      rcases Nat.eq_zero_or_pos w with h0 | h0
      · rw [h0] at hk
        omega
      · exact h0
    have hh : 0 < h := by
      rcases Nat.eq_zero_or_pos h with h0 | h0
      · rw [h0] at hk
        omega
      · exact h0
    have hq : k / w < h := by
      rw [Nat.div_lt_iff_lt_mul hw]
      omega
    obtain ⟨q, r, hqh, hrw, rfl⟩ : ∃ q r, q < h ∧ r < w ∧ k = q * w + r :=
      ⟨k / w, k % w, hq, Nat.mod_lt _ hw, by
        rw [Nat.mul_comm (k / w) w]
        exact (Nat.div_add_mod k w).symm⟩
    have e1 : (rotateMask (rotateMask mask w h 90) h w (-90)).getD (q * w + r) 0 =
        (rotateMask mask w h 90).getD
          (((q * w + r) % w) * h + (h - 1 - (q * w + r) / w)) 0 :=
      rotateMask_neg90_getD _ h w _ (by omega)
    rw [idx_mod_eq q r w hrw, idx_div_eq q r w hrw] at e1
    have hj : r * h + (h - 1 - q) < h * w :=
      row_major_lt (show h - 1 - q < h by omega) hrw
    have e2 : (rotateMask mask w h 90).getD (r * h + (h - 1 - q)) 0 =
        mask.getD ((h - 1 - (r * h + (h - 1 - q)) % h) * w +
          (r * h + (h - 1 - q)) / h) 0 :=
      rotateMask_90_getD mask w h _ hj
    rw [idx_mod_eq r (h - 1 - q) h (by omega),
      idx_div_eq r (h - 1 - q) h (by omega)] at e2
    have hyy : h - 1 - (h - 1 - q) = q := by omega
    rw [hyy] at e2
    rw [List.getD_eq_getElem _ _ h1] at e1
    rw [e1, e2]
    exact List.getD_eq_getElem _ _ h2

theorem rotateMask_180_180 (mask : List ℕ) (w h : ℕ)
    (hlen : mask.length = w * h) :
    rotateMask (rotateMask mask w h 180) w h 180 = mask := by
  apply List.ext_getElem
  · rw [rotateMask_180_length, rotateMask_180_length]
  · intro k h1 h2
    have hk : k < w * h := by
      rw [← hlen]
      exact h2
    have hcomm : h * w = w * h := Nat.mul_comm h w
    have hw : 0 < w := by
      rcases Nat.eq_zero_or_pos w with h0 | h0
      · rw [h0] at hk
        omega
      · exact h0
    have hh : 0 < h := by
      rcases Nat.eq_zero_or_pos h with h0 | h0
      · rw [h0] at hk
        omega
      · exact h0
    have hq : k / w < h := by
      rw [Nat.div_lt_iff_lt_mul hw]
      omega
    obtain ⟨q, r, hqh, hrw, rfl⟩ : ∃ q r, q < h ∧ r < w ∧ k = q * w + r :=
      ⟨k / w, k % w, hq, Nat.mod_lt _ hw, by
        rw [Nat.mul_comm (k / w) w]
        exact (Nat.div_add_mod k w).symm⟩
    have hlen1 : (rotateMask mask w h 180).length = w * h := by
      rw [rotateMask_180_length, hlen]
    have e1 : (rotateMask (rotateMask mask w h 180) w h 180).getD (q * w + r) 0 =
        (rotateMask mask w h 180).getD
          ((h - 1 - (q * w + r) / w) * w + (w - 1 - (q * w + r) % w)) 0 :=
      rotateMask_180_getD _ w h _ (by omega)
    rw [idx_mod_eq q r w hrw, idx_div_eq q r w hrw] at e1
    have hj : (h - 1 - q) * w + (w - 1 - r) < mask.length := by
      rw [hlen]
      exact row_major_lt (show w - 1 - r < w by omega) (show h - 1 - q < h by omega)
    have e2 : (rotateMask mask w h 180).getD ((h - 1 - q) * w + (w - 1 - r)) 0 =
        mask.getD ((h - 1 - ((h - 1 - q) * w + (w - 1 - r)) / w) * w +
          (w - 1 - ((h - 1 - q) * w + (w - 1 - r)) % w)) 0 :=
      rotateMask_180_getD mask w h _ hj
    rw [idx_mod_eq (h - 1 - q) (w - 1 - r) w (by omega),
      idx_div_eq (h - 1 - q) (w - 1 - r) w (by omega)] at e2
    have hyy : h - 1 - (h - 1 - q) = q := by omega
    have hxx : w - 1 - (w - 1 - r) = r := by omega
    rw [hyy, hxx] at e2
    rw [List.getD_eq_getElem _ _ h1] at e1
    rw [e1, e2]
    exact List.getD_eq_getElem _ _ h2

theorem ImageData_eq_of (a b : ImageData) (hw : a.width = b.width)
    (hh : a.height = b.height) (hd : a.data = b.data) : a = b := by
  cases a
  cases b
  simp_all

theorem rotateImageData_90_length (img : ImageData) :
    (rotateImageData img 90).data.length = img.data.length := by
  simp [rotateImageData]

theorem rotateImageData_neg90_length (img : ImageData) :
    (rotateImageData img (-90)).data.length = img.data.length := by
  simp [rotateImageData]

theorem rotateImageData_180_length (img : ImageData) :
    (rotateImageData img 180).data.length = img.data.length := by
  simp [rotateImageData]

theorem rotateImageData_90_getD (img : ImageData) (k : ℕ)
    (hk : k < img.data.length) :
    (rotateImageData img 90).data.getD k 0 =
      img.data.getD (((img.height - 1 - k / 4 % img.height) * img.width +
        k / 4 / img.height) * 4 + k % 4) 0 := by
  have e : (rotateImageData img 90).data = List.ofFn
      (fun k : Fin img.data.length =>
        img.data.getD (((img.height - 1 - (k : ℕ) / 4 % img.height) * img.width +
          (k : ℕ) / 4 / img.height) * 4 + (k : ℕ) % 4) 0) := by
    simp [rotateImageData]
  rw [e]
  exact getD_ofFn _ k hk

theorem rotateImageData_neg90_getD (img : ImageData) (k : ℕ)
    (hk : k < img.data.length) :
    (rotateImageData img (-90)).data.getD k 0 =
      img.data.getD (((k / 4 % img.height) * img.width +
        (img.width - 1 - k / 4 / img.height)) * 4 + k % 4) 0 := by
  have e : (rotateImageData img (-90)).data = List.ofFn
      (fun k : Fin img.data.length =>
        img.data.getD ((((k : ℕ) / 4 % img.height) * img.width +
          (img.width - 1 - (k : ℕ) / 4 / img.height)) * 4 + (k : ℕ) % 4) 0) := by
    simp [rotateImageData]
  rw [e]
  exact getD_ofFn _ k hk

theorem rotateImageData_180_getD (img : ImageData) (k : ℕ)
    (hk : k < img.data.length) :
    (rotateImageData img 180).data.getD k 0 =
      img.data.getD (((img.height - 1 - k / 4 / img.width) * img.width +
        (img.width - 1 - k / 4 % img.width)) * 4 + k % 4) 0 := by
  have e : (rotateImageData img 180).data = List.ofFn
      (fun k : Fin img.data.length =>
        img.data.getD (((img.height - 1 - (k : ℕ) / 4 / img.width) * img.width +
          (img.width - 1 - (k : ℕ) / 4 % img.width)) * 4 + (k : ℕ) % 4) 0) := by
    simp [rotateImageData]
  rw [e]
  exact getD_ofFn _ k hk

theorem rotateImageData_90_width (img : ImageData) :
    (rotateImageData img 90).width = img.height := by
  simp [rotateImageData]

theorem rotateImageData_90_height (img : ImageData) :
    (rotateImageData img 90).height = img.width := by
  simp [rotateImageData]

theorem rotateImageData_neg90_width (img : ImageData) :
    (rotateImageData img (-90)).width = img.height := by
  simp [rotateImageData]

theorem rotateImageData_neg90_height (img : ImageData) :
    (rotateImageData img (-90)).height = img.width := by
  simp [rotateImageData]

theorem rotateImageData_180_width (img : ImageData) :
    (rotateImageData img 180).width = img.width := by
  simp [rotateImageData]

theorem rotateImageData_180_height (img : ImageData) :
    (rotateImageData img 180).height = img.height := by
  simp [rotateImageData]

/-- Scatter form of the source's 90° loop: the write target
`j = (x*outW + (outW-1-y))*4 + c` holds the source byte `i = (y*w+x)*4+c`. -/
theorem rotateImageData_write_90 (img : ImageData) (x y c : ℕ)
    (hlen : img.data.length = img.width * img.height * 4)
    (hx : x < img.width) (hy : y < img.height) (hc : c < 4) :
    (rotateImageData img 90).data.getD
      ((x * img.height + (img.height - 1 - y)) * 4 + c) 0 =
      img.data.getD ((y * img.width + x) * 4 + c) 0 := by
  have hpix : x * img.height + (img.height - 1 - y) <
      img.height * img.width :=
    row_major_lt (show img.height - 1 - y < img.height by omega) hx
  have hcomm : img.height * img.width = img.width * img.height :=
    Nat.mul_comm _ _
  have hk : (x * img.height + (img.height - 1 - y)) * 4 + c <
      img.data.length := by
    rw [hlen]
    omega
  have e := rotateImageData_90_getD img _ hk
  have h4 : ((x * img.height + (img.height - 1 - y)) * 4 + c) / 4 =
      x * img.height + (img.height - 1 - y) := by omega
  have hm4 : ((x * img.height + (img.height - 1 - y)) * 4 + c) % 4 = c := by
    omega
  rw [h4, hm4, idx_mod_eq x (img.height - 1 - y) img.height (by omega),
    idx_div_eq x (img.height - 1 - y) img.height (by omega)] at e
  have hyy : img.height - 1 - (img.height - 1 - y) = y := by omega
  rw [hyy] at e
  exact e

/-- Scatter form of the source's −90° loop: the write target
`j = ((outH-1-x)*outW + y)*4 + c` holds the source byte `i = (y*w+x)*4+c`. -/
theorem rotateImageData_write_neg90 (img : ImageData) (x y c : ℕ)
    (hlen : img.data.length = img.width * img.height * 4)
    (hx : x < img.width) (hy : y < img.height) (hc : c < 4) :
    (rotateImageData img (-90)).data.getD
      (((img.width - 1 - x) * img.height + y) * 4 + c) 0 =
      img.data.getD ((y * img.width + x) * 4 + c) 0 := by
  have hpix : (img.width - 1 - x) * img.height + y <
      img.height * img.width :=
    row_major_lt hy (show img.width - 1 - x < img.width by omega)
  have hcomm : img.height * img.width = img.width * img.height :=
    Nat.mul_comm _ _
  have hk : ((img.width - 1 - x) * img.height + y) * 4 + c <
      img.data.length := by
    rw [hlen]
    omega
  have e := rotateImageData_neg90_getD img _ hk
  have h4 : (((img.width - 1 - x) * img.height + y) * 4 + c) / 4 =
      (img.width - 1 - x) * img.height + y := by omega
  have hm4 : (((img.width - 1 - x) * img.height + y) * 4 + c) % 4 = c := by
    omega
  rw [h4, hm4, idx_mod_eq (img.width - 1 - x) y img.height hy,
    idx_div_eq (img.width - 1 - x) y img.height hy] at e
  have hxx : img.width - 1 - (img.width - 1 - x) = x := by omega
  rw [hxx] at e
  exact e

/-- Scatter form of the source's 180° loop: the write target
`j = ((h-1-y)*w + (w-1-x))*4 + c` holds the source byte `i = (y*w+x)*4+c`. -/
theorem rotateImageData_write_180 (img : ImageData) (x y c : ℕ)
    (hlen : img.data.length = img.width * img.height * 4)
    (hx : x < img.width) (hy : y < img.height) (hc : c < 4) :
    (rotateImageData img 180).data.getD
      (((img.height - 1 - y) * img.width + (img.width - 1 - x)) * 4 + c) 0 =
      img.data.getD ((y * img.width + x) * 4 + c) 0 := by
  have hpix : (img.height - 1 - y) * img.width + (img.width - 1 - x) <
      img.width * img.height :=
    row_major_lt (show img.width - 1 - x < img.width by omega)
      (show img.height - 1 - y < img.height by omega)
  have hk : ((img.height - 1 - y) * img.width + (img.width - 1 - x)) * 4 + c <
      img.data.length := by
    rw [hlen]
    omega
  have e := rotateImageData_180_getD img _ hk
  have h4 : (((img.height - 1 - y) * img.width + (img.width - 1 - x)) * 4 + c) / 4 =
      (img.height - 1 - y) * img.width + (img.width - 1 - x) := by omega
  have hm4 : (((img.height - 1 - y) * img.width + (img.width - 1 - x)) * 4 + c) % 4 =
      c := by omega
  rw [h4, hm4, idx_mod_eq (img.height - 1 - y) (img.width - 1 - x) img.width
      (by omega),
    idx_div_eq (img.height - 1 - y) (img.width - 1 - x) img.width (by omega)] at e
  have hyy : img.height - 1 - (img.height - 1 - y) = y := by omega
  have hxx : img.width - 1 - (img.width - 1 - x) = x := by omega
  rw [hyy, hxx] at e
  exact e

theorem rotateImageData_90_neg90 (img : ImageData)
    (hlen : img.data.length = img.width * img.height * 4) :
    rotateImageData (rotateImageData img 90) (-90) = img := by
  apply ImageData_eq_of
  · rw [rotateImageData_neg90_width, rotateImageData_90_height]
  · rw [rotateImageData_neg90_height, rotateImageData_90_width]
  · apply List.ext_getElem
    · rw [rotateImageData_neg90_length, rotateImageData_90_length]
    · intro k h1 h2
      have hk : k < img.width * img.height * 4 := by
        rw [← hlen]
        exact h2
      have hcomm : img.height * img.width = img.width * img.height :=
        Nat.mul_comm _ _
      have hw : 0 < img.width := by
        rcases Nat.eq_zero_or_pos img.width with h0 | h0
        · rw [h0] at hk
          omega
        · exact h0
      have hh : 0 < img.height := by
        rcases Nat.eq_zero_or_pos img.height with h0 | h0
        · rw [h0] at hk
          omega
        · exact h0
      obtain ⟨p, c, hpwh, hc4, rfl⟩ : ∃ p c,
          p < img.width * img.height ∧ c < 4 ∧ k = p * 4 + c :=
        ⟨k / 4, k % 4, by omega, Nat.mod_lt _ (by norm_num), by omega⟩
      have hqlt : p / img.width < img.height := by
        rw [Nat.div_lt_iff_lt_mul hw]
        omega
      obtain ⟨q, r, hqh, hrw, rfl⟩ : ∃ q r, q < img.height ∧ r < img.width ∧
          p = q * img.width + r :=
        ⟨p / img.width, p % img.width, hqlt, Nat.mod_lt _ hw, by
          rw [Nat.mul_comm (p / img.width) img.width]
          exact (Nat.div_add_mod p img.width).symm⟩
      have hb1 : (q * img.width + r) * 4 + c <
          (rotateImageData img 90).data.length := by
        rw [rotateImageData_90_length]
        exact h2
      have e1 := rotateImageData_neg90_getD (rotateImageData img 90) _ hb1
      rw [rotateImageData_90_width, rotateImageData_90_height] at e1
      have hk4 : ((q * img.width + r) * 4 + c) / 4 = q * img.width + r := by
        omega
      have hkc : ((q * img.width + r) * 4 + c) % 4 = c := by omega
      rw [hk4, hkc, idx_mod_eq q r img.width hrw,
        idx_div_eq q r img.width hrw] at e1
      have hpix : r * img.height + (img.height - 1 - q) <
          img.height * img.width :=
        row_major_lt (show img.height - 1 - q < img.height by omega) hrw
      have hb2 : (r * img.height + (img.height - 1 - q)) * 4 + c <
          img.data.length := by
        rw [hlen]
        omega
      have e2 := rotateImageData_90_getD img
        ((r * img.height + (img.height - 1 - q)) * 4 + c) hb2
      have hj4 : ((r * img.height + (img.height - 1 - q)) * 4 + c) / 4 =
          r * img.height + (img.height - 1 - q) := by omega
      have hjc : ((r * img.height + (img.height - 1 - q)) * 4 + c) % 4 = c := by
        omega
      rw [hj4, hjc, idx_mod_eq r (img.height - 1 - q) img.height (by omega),
        idx_div_eq r (img.height - 1 - q) img.height (by omega)] at e2
      have hyy : img.height - 1 - (img.height - 1 - q) = q := by omega
      rw [hyy] at e2
      rw [List.getD_eq_getElem _ _ h1] at e1
      rw [e1, e2]
      exact List.getD_eq_getElem _ _ h2

theorem rotateImageData_180_180 (img : ImageData)
    (hlen : img.data.length = img.width * img.height * 4) :
    rotateImageData (rotateImageData img 180) 180 = img := by
  apply ImageData_eq_of
  · rw [rotateImageData_180_width, rotateImageData_180_width]
  · rw [rotateImageData_180_height, rotateImageData_180_height]
  · apply List.ext_getElem
    · rw [rotateImageData_180_length, rotateImageData_180_length]
    · intro k h1 h2
      have hk : k < img.width * img.height * 4 := by
        rw [← hlen]
        exact h2
      have hw : 0 < img.width := by
        rcases Nat.eq_zero_or_pos img.width with h0 | h0
        · rw [h0] at hk
          omega
        · exact h0
      have hh : 0 < img.height := by
        rcases Nat.eq_zero_or_pos img.height with h0 | h0
        · rw [h0] at hk
          omega
        · exact h0
      have hcomm : img.height * img.width = img.width * img.height :=
        Nat.mul_comm _ _
      obtain ⟨p, c, hpwh, hc4, rfl⟩ : ∃ p c,
          p < img.width * img.height ∧ c < 4 ∧ k = p * 4 + c :=
        ⟨k / 4, k % 4, by omega, Nat.mod_lt _ (by norm_num), by omega⟩
      have hqlt : p / img.width < img.height := by
        rw [Nat.div_lt_iff_lt_mul hw]
        omega
      obtain ⟨q, r, hqh, hrw, rfl⟩ : ∃ q r, q < img.height ∧ r < img.width ∧
          p = q * img.width + r :=
        ⟨p / img.width, p % img.width, hqlt, Nat.mod_lt _ hw, by
          rw [Nat.mul_comm (p / img.width) img.width]
          exact (Nat.div_add_mod p img.width).symm⟩
      have hb1 : (q * img.width + r) * 4 + c <
          (rotateImageData img 180).data.length := by
        rw [rotateImageData_180_length]
        exact h2
      have e1 := rotateImageData_180_getD (rotateImageData img 180) _ hb1
      rw [rotateImageData_180_width, rotateImageData_180_height] at e1
      have hk4 : ((q * img.width + r) * 4 + c) / 4 = q * img.width + r := by
        omega
      have hkc : ((q * img.width + r) * 4 + c) % 4 = c := by omega
      rw [hk4, hkc, idx_mod_eq q r img.width hrw,
        idx_div_eq q r img.width hrw] at e1
      have hpix : (img.height - 1 - q) * img.width + (img.width - 1 - r) <
          img.width * img.height :=
        row_major_lt (show img.width - 1 - r < img.width by omega)
          (show img.height - 1 - q < img.height by omega)
      have hb2 : ((img.height - 1 - q) * img.width + (img.width - 1 - r)) * 4 + c <
          img.data.length := by
        rw [hlen]
        omega
      have e2 := rotateImageData_180_getD img
        (((img.height - 1 - q) * img.width + (img.width - 1 - r)) * 4 + c) hb2
      have hj4 : (((img.height - 1 - q) * img.width + (img.width - 1 - r)) * 4 + c) / 4 =
          (img.height - 1 - q) * img.width + (img.width - 1 - r) := by omega
      have hjc : (((img.height - 1 - q) * img.width + (img.width - 1 - r)) * 4 + c) % 4 =
          c := by omega
      rw [hj4, hjc,
        idx_mod_eq (img.height - 1 - q) (img.width - 1 - r) img.width (by omega),
        idx_div_eq (img.height - 1 - q) (img.width - 1 - r) img.width (by omega)] at e2
      have hyy : img.height - 1 - (img.height - 1 - q) = q := by omega
      have hxx : img.width - 1 - (img.width - 1 - r) = r := by omega
      rw [hyy, hxx] at e2
      rw [List.getD_eq_getElem _ _ h1] at e1
      rw [e1, e2]
      exact List.getD_eq_getElem _ _ h2

/-- C2: rotating by 90° then −90° restores the raster bit for bit, as does
rotating twice by 180°; the same holds for `rotateMask` on a layer mask of
matching dimensions. -/
theorem rotate_inverse_pairs :
    (∀ img : ImageData, img.data.length = img.width * img.height * 4 →
      rotateImageData (rotateImageData img 90) (-90) = img) ∧
    (∀ img : ImageData, img.data.length = img.width * img.height * 4 →
      rotateImageData (rotateImageData img 180) 180 = img) ∧
    (∀ (mask : List ℕ) (w h : ℕ), mask.length = w * h →
      rotateMask (rotateMask mask w h 90) h w (-90) = mask) ∧
    (∀ (mask : List ℕ) (w h : ℕ), mask.length = w * h →
      rotateMask (rotateMask mask w h 180) w h 180 = mask) :=
  ⟨rotateImageData_90_neg90, rotateImageData_180_180,
    rotateMask_90_neg90, rotateMask_180_180⟩

theorem card_filter_range_eq (n : ℕ) (q : ℕ → Prop) [DecidablePred q] :
    ((Finset.range n).filter q).card =
      ((List.range n).filter (fun a => decide (q a))).length := rfl

/-- The report's per-layer loop count equals the spec's count of pixels
with alpha ≥ 128 whose color matches, whenever the buffer has the
`W·H·4` length of its dimensions. -/
theorem csvPixelCount_eq_spec (img : ImageData) (layer : Layer)
    (hlen : img.data.length = img.width * img.height * 4) :
    csvPixelCount img.data layer = specPixelCount img layer := by
  unfold csvPixelCount specPixelCount
  have hn : (img.data.length + 3) / 4 = img.width * img.height := by omega
  rw [hn, card_filter_range_eq]
  congr 1
  apply List.filter_congr
  intro p _
  rw [Bool.decide_and]
  congr 1
  rw [← decide_not]
  exact decide_eq_decide.mpr Nat.not_lt

/-- `toFixed2` always prints an integer part, a dot and exactly two
decimal digits. -/
theorem toFixed2_two_decimals (q : ℚ) : ∃ s : String,
    toFixed2 q = toString ((jsRound (q * 100)).toNat / 100) ++ "." ++ s ∧
    s.length = 2 := by
  refine ⟨(if (jsRound (q * 100)).toNat % 100 < 10 then "0" else "") ++
    toString ((jsRound (q * 100)).toNat % 100), ?_, ?_⟩
  · exact String.append_assoc _ _ _
  · have hm : (jsRound (q * 100)).toNat % 100 < 100 :=
      Nat.mod_lt _ (by norm_num)
    have hall : ∀ m, m < 100 →
        ((if m < 10 then "0" else "") ++ toString m).length = 2 := by decide
    exact hall _ hm

/-- C7 (amended): the CSV report is the header row and one data row per
layer joined by CRLF (rows are separated, not terminated: the final row
has no trailing CRLF); each data row carries the hex color, the three
channels, the spec's pixel count (alpha ≥ 128 and color match against the
original image) and the percentage, which `toFixed2` prints with exactly
two decimals and a trailing `%` whenever the image has at least one
pixel. -/
theorem exportColorReportCSV_spec (layers : List Layer) (img : ImageData)
    (hlen : img.data.length = img.width * img.height * 4) :
    exportColorReportCSV layers img =
      String.intercalate "\r\n"
        ("Color (Hex),R,G,B,Pixel Count,Percentage" ::
          layers.map (csvSpecRow img)) ∧
    (∀ q : ℚ, ∃ s : String,
      toFixed2 q = toString ((jsRound (q * 100)).toNat / 100) ++ "." ++ s ∧
      s.length = 2) := by
  constructor
  · simp only [exportColorReportCSV]
    refine congrArg (String.intercalate "\r\n") ?_
    refine congrArg (List.cons _) ?_
    refine List.map_congr_left (fun layer _ => ?_)
    simp only [csvSpecRow]
    rw [csvPixelCount_eq_spec img layer hlen]
  · exact toFixed2_two_decimals

/-- C7 witness: at the empty layer list and the empty raster the report is
exactly the header line. -/
theorem exportColorReportCSV_spec_witness :
    exportColorReportCSV [] ⟨0, 0, []⟩ =
      String.intercalate "\r\n"
        ("Color (Hex),R,G,B,Pixel Count,Percentage" ::
          ([] : List Layer).map (csvSpecRow ⟨0, 0, []⟩)) ∧
    (∀ q : ℚ, ∃ s : String,
      toFixed2 q = toString ((jsRound (q * 100)).toNat / 100) ++ "." ++ s ∧
      s.length = 2) :=
  exportColorReportCSV_spec [] ⟨0, 0, []⟩ (by decide)

set_option maxHeartbeats 2000000 in
/-- C7 counterexample: the claim's reading that every row (the spec's
wording: "each row terminated by CRLF") is CRLF-terminated is false — the
produced report joins rows with CRLF and ends without one. -/
theorem exportColorReportCSV_not_crlf_terminated :
    exportColorReportCSV [{ id := "l1", color := ⟨0, 0, 0⟩ }] ⟨0, 0, []⟩ ≠
      csvReportSpecTerminated [{ id := "l1", color := ⟨0, 0, 0⟩ }] ⟨0, 0, []⟩ := by
  decide
